import Mathlib

/-!
Verification development for the narcan_finder_app source (src/main.py).

The embedding models:
* the quantum feature simulator `run_quantum_analysis` (7-wire pennylane
  circuit, `default.qubit` state-vector semantics) as an explicit complex
  amplitude vector of size 2^7 = 128, floating point modelled by ℝ/ℂ;
* the credential vault (`load_or_create_key`, `encrypt_api_key`,
  `decrypt_api_key`) over an explicit file-system state, with AES-GCM
  modelled as an abstract authenticated cipher satisfying its round-trip
  contract, and the UTF-8 codec modelled at the code-point level (the codec
  is a bijection between strings and their valid encodings);
* the retrying completion client `run_openai_completion` with the network
  modelled as an oracle from attempt index to optional response text;
* the telemetry sampler `get_cpu_ram_usage` with the OS reads modelled as a
  fallible outcome;
* the sqlite persistence (`save_to_db` and the `ORDER BY id DESC LIMIT 10`
  query used by the export functions) with AUTOINCREMENT modelled as a
  sequence counter.
-/

namespace NarcanFinder

/-- One of the seven register positions (pennylane wires 0..6). -/
abbrev Wire := Fin 7

/-- Basis-state index of the 7-qubit state vector (2^7 = 128 amplitudes). -/
abbrev BasisIx := Fin 128

/-- 7-qubit state: one complex amplitude per basis state. -/
abbrev QState := BasisIx → ℂ

/-- The bit of basis index `k` addressed by wire `i`.  Pennylane orders the
computational basis with wire 0 as the most significant bit. -/
def getBit (i : Wire) (k : BasisIx) : Bool := Nat.testBit k.val (6 - i.val)

/-- Flip the bit of basis index `k` addressed by wire `i`. -/
def flipWire (i : Wire) (k : BasisIx) : BasisIx :=
  ⟨k.val ^^^ 2 ^ (6 - i.val), by
    have h1 : k.val < 2 ^ 7 := by norm_num [k.isLt]
    have h2 : 2 ^ (6 - i.val) < 2 ^ 7 :=
      Nat.pow_lt_pow_right (by norm_num) (by omega)
    simpa using Nat.xor_lt_two_pow h1 h2⟩

/-- Gate vocabulary: the single-qubit rotations named by the spec and the
controlled-NOT.  Angles are real numbers (floating point modelled by ℝ). -/
inductive Gate where
  | ry : ℝ → Wire → Gate
  | rx : ℝ → Wire → Gate
  | rz : ℝ → Wire → Gate
  | cnot : Wire → Wire → Gate

/-- `qml.RY θ` on wire `i`: rotation matrix [[cos(θ/2), -sin(θ/2)],
[sin(θ/2), cos(θ/2)]] applied to the amplitude pairs addressed by wire `i`. -/
noncomputable def applyRY (θ : ℝ) (i : Wire) (ψ : QState) : QState := fun k =>
  if getBit i k then
    (Real.sin (θ / 2) : ℂ) * ψ (flipWire i k) + (Real.cos (θ / 2) : ℂ) * ψ k
  else
    (Real.cos (θ / 2) : ℂ) * ψ k - (Real.sin (θ / 2) : ℂ) * ψ (flipWire i k)

/-- `qml.RX θ` on wire `i`: [[cos(θ/2), -i·sin(θ/2)], [-i·sin(θ/2), cos(θ/2)]]. -/
noncomputable def applyRX (θ : ℝ) (i : Wire) (ψ : QState) : QState := fun k =>
  if getBit i k then
    -Complex.I * (Real.sin (θ / 2) : ℂ) * ψ (flipWire i k) +
      (Real.cos (θ / 2) : ℂ) * ψ k
  else
    (Real.cos (θ / 2) : ℂ) * ψ k +
      -Complex.I * (Real.sin (θ / 2) : ℂ) * ψ (flipWire i k)

/-- `qml.RZ θ` on wire `i`: diagonal phases e^{∓iθ/2} on the two branches. -/
noncomputable def applyRZ (θ : ℝ) (i : Wire) (ψ : QState) : QState := fun k =>
  if getBit i k then Complex.exp (Complex.I * (θ / 2)) * ψ k
  else Complex.exp (-(Complex.I * (θ / 2))) * ψ k

/-- `qml.CNOT` with control `c` and target `t`: permutation of the basis that
flips the target bit exactly when the control bit is set. -/
def applyCNOT (c t : Wire) (ψ : QState) : QState := fun k =>
  if getBit c k then ψ (flipWire t k) else ψ k

/-- Apply one gate to a state. -/
noncomputable def applyGate (ψ : QState) : Gate → QState
  | .ry θ i => applyRY θ i ψ
  | .rx θ i => applyRX θ i ψ
  | .rz θ i => applyRZ θ i ψ
  | .cnot c t => applyCNOT c t ψ

/-- `default.qubit` initial state: all wires in |0⟩. -/
def initState : QState := fun k => if k = 0 then 1 else 0

/-- The gate sequence of the `circuit` qnode in `run_quantum_analysis`
(src/main.py lines 91-97), read off the source: for each wire `i` in 0..6 a
single RY by `π·(0.5 + cpu_param)` on even wires and `π·(0.5 + ram_param)` on
odd wires, then CNOTs on adjacent pairs (0,1)..(5,6). -/
noncomputable def sourceGates (c r : ℝ) : List Gate :=
  (List.ofFn fun i : Wire =>
    Gate.ry (Real.pi * (0.5 + if i.val % 2 = 0 then c else r)) i) ++
  (List.ofFn fun i : Fin 6 => Gate.cnot i.castSucc i.succ)

/-- The reference gate sequence stated by the spec (§4.1 steps 2-3): for each
wire an RX by `π·(c + i·0.01)`, an RY by `π·(r + i·0.01)`, an RZ by
`π·(h + i·0.02)`, then the adjacent CNOT chain and a closing CNOT from wire 0
to wire 6.  Stated from the spec text, for comparison with `sourceGates`. -/
noncomputable def specGates (c r h : ℝ) : List Gate :=
  (List.ofFn fun i : Wire =>
    [Gate.rx (Real.pi * (c + i.val * 0.01)) i,
     Gate.ry (Real.pi * (r + i.val * 0.01)) i,
     Gate.rz (Real.pi * (h + i.val * 0.02)) i]).flatten ++
  (List.ofFn fun i : Fin 6 => Gate.cnot i.castSucc i.succ) ++
  [Gate.cnot 0 6]

/-- Final state of the source circuit on normalized parameters `c`, `r`. -/
noncomputable def circuitState (c r : ℝ) : QState :=
  (sourceGates c r).foldl applyGate initState

/-- `run_quantum_analysis` (src/main.py lines 85-99): normalizes the inputs by
100 and returns `qml.probs(wires=range(7))`, the vector of the 128 basis-state
probabilities |amplitude|² of the final state. -/
noncomputable def run_quantum_analysis (cpu_usage ram_usage : ℝ) : List ℝ :=
  List.ofFn fun k : BasisIx =>
    Complex.normSq (circuitState (cpu_usage / 100) (ram_usage / 100) k)

/-- `run_quantum_analysis` including its `try/except` wrapper (src/main.py
lines 86, 100-101): `fails` records whether the interpreter raised anywhere
inside the `try` block; the `except` arm returns the empty list. -/
noncomputable def run_quantum_analysis_try (cpu_usage ram_usage : ℝ)
    (fails : Bool) : List ℝ :=
  match fails with
  | true => []
  | false => run_quantum_analysis cpu_usage ram_usage

/-- Byte strings are modelled as sequences of abstract byte tokens.  The UTF-8
codec is a bijection between strings and their valid encodings, so the
encoding of a string is modelled by its code-point sequence. -/
abbrev Bytes := List Char

/-- Python `str.encode()`. -/
def strEncode (s : String) : Bytes := s.data

/-- Python `bytes.decode()`: partial inverse of `strEncode`. -/
def strDecode (b : Bytes) : Option String := some (String.mk b)

/-- An authenticated cipher with the AES-GCM interface used by the source:
`encrypt key nonce plaintext` yields ciphertext-plus-tag, `decrypt` returns
`none` exactly when authentication fails, and decryption inverts encryption
under the same key and nonce (the AEAD correctness contract of
`cryptography.hazmat...AESGCM`, which is external library code). -/
structure AEADScheme where
  encrypt : Bytes → Bytes → Bytes → Bytes
  decrypt : Bytes → Bytes → Bytes → Option Bytes
  decrypt_encrypt : ∀ key nonce msg, decrypt key nonce (encrypt key nonce msg) = some msg

/-- The two local files owned by the vault: `KEY_PATH`
(narcan_master_key.bin) and `ENC_API_PATH` (narcan_api_key.enc); `none`
models an absent file. -/
structure VaultFS where
  keyFile : Option Bytes
  encFile : Option Bytes

/-- `load_or_create_key` (src/main.py lines 24-32): returns the content of the
key file if it exists; otherwise persists and returns `freshKey`, the fresh
batch of random bytes drawn by `generate_aes_key` (`AESGCM.generate_key`,
32 random bytes). -/
def load_or_create_key (fs : VaultFS) (freshKey : Bytes) : Bytes × VaultFS :=
  match fs.keyFile with
  | some k => (k, fs)
  | none => (freshKey, { fs with keyFile := some freshKey })

/-- `encrypt_api_key` (src/main.py lines 34-40): loads or creates the key,
draws a fresh 12-byte `nonce` (`secrets.token_bytes(12)`), AES-GCM-encrypts
the encoded credential with no associated data, and overwrites the vault file
with `nonce ++ ciphertext`. -/
def encrypt_api_key (A : AEADScheme) (fs : VaultFS) (freshKey nonce : Bytes)
    (api_key : String) : VaultFS :=
  let kf := load_or_create_key fs freshKey
  { kf.2 with encFile := some (nonce ++ A.encrypt kf.1 nonce (strEncode api_key)) }

/-- The exceptions `decrypt_api_key` can propagate: AES-GCM authentication
failure (`InvalidTag`) or a UTF-8 decoding failure. -/
inductive VaultErr where
  | invalidTag : VaultErr
  | decodeFailure : VaultErr
deriving DecidableEq

/-- `decrypt_api_key` (src/main.py lines 42-52): returns `none` (Python
`None`) when the vault file is absent; otherwise splits the first 12 bytes as
nonce, decrypts the remainder, and decodes.  It has no exception handler, so
a decryption or decoding failure propagates to the caller as an error. -/
def decrypt_api_key (A : AEADScheme) (fs : VaultFS) (freshKey : Bytes) :
    Except VaultErr (Option String) :=
  match fs.encFile with
  | none => .ok none
  | some data =>
    let kf := load_or_create_key fs freshKey
    match A.decrypt kf.1 (data.take 12) (data.drop 12) with
    | none => .error .invalidTag
    | some pt =>
      match strDecode pt with
      | none => .error .decodeFailure
      | some s => .ok (some s)

/-- A concrete `AEADScheme` used to instantiate witnesses: encryption prepends
a tag byte, decryption checks and strips it. -/
def tagAEAD : AEADScheme where
  encrypt := fun _ _ msg => 'T' :: msg
  decrypt := fun _ _ ct =>
    match ct with
    | [] => none
    | t :: rest => if t = 'T' then some rest else none
  decrypt_encrypt := by intro key nonce msg; rfl

/-- Outcome of one run of the completion client: the returned value, the list
of back-off sleep durations in order, and the number of attempts made. -/
structure RunLog where
  result : Option String
  sleeps : List ℕ
  attempts : ℕ
deriving DecidableEq

/-- The `for attempt in range(3)` loop of `run_openai_completion`
(src/main.py lines 67-77).  The network and response parsing are modelled by
`oracle`: `oracle k = some text` means attempt `k` succeeds end-to-end with
extracted text `text`, `oracle k = none` means it raises (network error,
non-success status, or malformed body).  After a failed attempt `k` the code
sleeps `2 ^ k` seconds. -/
def attemptLoop (oracle : ℕ → Option String) : ℕ → ℕ → RunLog
  | 0, _ => ⟨none, [], 0⟩
  | fuel + 1, k =>
    match oracle k with
    | some text => ⟨some text, [], 1⟩
    | none =>
      let r := attemptLoop oracle fuel (k + 1)
      ⟨r.result, 2 ^ k :: r.sleeps, r.attempts + 1⟩

/-- `run_openai_completion` (src/main.py lines 56-77): up to 3 attempts,
returning `None` when all fail. -/
def run_openai_completion (oracle : ℕ → Option String) : RunLog :=
  attemptLoop oracle 3 0

/-- A completion endpoint that fails on attempts 0 and 1 and succeeds on
attempt 2. -/
def failTwiceOracle : ℕ → Option String :=
  fun k => if k = 2 then some "ok" else none

/-- `get_cpu_ram_usage` (src/main.py lines 79-83): the two `psutil` reads are
modelled as one fallible outcome; the `except` arm returns `(0, 0)`. -/
def get_cpu_ram_usage (reading : Except Unit (ℝ × ℝ)) : ℝ × ℝ :=
  match reading with
  | .ok p => p
  | .error _ => (0, 0)

/-- One row of the `narcan_requests` table. -/
structure DBRow where
  id : ℕ
  user_input : String
  ai_response : String
deriving DecidableEq

/-- `save_to_db` (src/main.py lines 118-126): sqlite assigns the inserted row
the next value of the table's AUTOINCREMENT sequence `seq`, which is strictly
larger than every id it has handed out before. -/
def save_to_db (rows : List DBRow) (seq : ℕ) (prompt result : String) :
    List DBRow × ℕ :=
  (rows ++ [⟨seq + 1, prompt, result⟩], seq + 1)

/-- Rows come newest first: `a` before `b` is allowed when `b.id ≤ a.id`. -/
def newerFirst (a b : DBRow) : Prop := b.id ≤ a.id

instance : DecidableRel newerFirst := fun a b => Nat.decLe b.id a.id

instance : IsTotal DBRow newerFirst :=
  ⟨fun a b => le_total b.id a.id⟩

instance : IsTrans DBRow newerFirst :=
  ⟨fun _ _ _ hab hbc => le_trans hbc hab⟩

/-- The query `SELECT * FROM narcan_requests ORDER BY id DESC LIMIT 10` used
by `export_to_txt` / `export_to_csv` / `export_to_json` (src/main.py lines
133-171): sort newest first, return at most 10 rows. -/
def export_recent (rows : List DBRow) : List DBRow :=
  (List.insertionSort newerFirst rows).take 10

/-! ### Helper lemmas: bit manipulation on basis indices -/

theorem getBit_flipWire_self (i : Wire) (k : BasisIx) :
    getBit i (flipWire i k) = ! getBit i k := by
  simp [getBit, flipWire, Nat.testBit_xor, Nat.testBit_two_pow_self]

theorem getBit_flipWire_ne {i j : Wire} (h : i ≠ j) (k : BasisIx) :
    getBit i (flipWire j k) = getBit i k := by
  have hv : i.val ≠ j.val := Fin.val_ne_of_ne h
  have hd : 6 - j.val ≠ 6 - i.val := by omega
  simp [getBit, flipWire, Nat.testBit_xor, Nat.testBit_two_pow_of_ne hd]

theorem flipWire_flipWire (i : Wire) (k : BasisIx) :
    flipWire i (flipWire i k) = k := by
  apply Fin.ext
  simp [flipWire, Nat.xor_cancel_right]

/-! ### Helper lemmas: each source gate preserves total probability -/

/-- Total probability of a state. -/
noncomputable def sumSq (ψ : QState) : ℝ := ∑ k, Complex.normSq (ψ k)

theorem sum_pair_split (F : BasisIx → ℝ) (i : Wire) :
    ∑ k, F k =
      ∑ k ∈ Finset.univ.filter (fun k => getBit i k = false),
        (F k + F (flipWire i k)) := by
  rw [← Finset.sum_filter_add_sum_filter_not Finset.univ
        (fun k => getBit i k = false) F, Finset.sum_add_distrib]
  congr 1
  apply Finset.sum_bij' (fun k _ => flipWire i k) (fun k _ => flipWire i k)
  · intro a ha
    simp only [Finset.mem_filter, Finset.mem_univ, true_and] at ha ⊢
    simp [getBit_flipWire_self, ha]
  · intro a ha
    simp only [Finset.mem_filter, Finset.mem_univ, true_and] at ha ⊢
    simp [getBit_flipWire_self, ha]
  · intro a _; exact flipWire_flipWire i a
  · intro a _; exact flipWire_flipWire i a
  · intro a _; rw [flipWire_flipWire]

theorem normSq_rot (c0 s0 : ℝ) (h : s0 ^ 2 + c0 ^ 2 = 1) (a b : ℂ) :
    Complex.normSq ((c0 : ℂ) * a - (s0 : ℂ) * b) +
      Complex.normSq ((s0 : ℂ) * a + (c0 : ℂ) * b) =
      Complex.normSq a + Complex.normSq b := by
  simp only [Complex.normSq_apply, Complex.sub_re, Complex.sub_im,
    Complex.add_re, Complex.add_im, Complex.mul_re, Complex.mul_im,
    Complex.ofReal_re, Complex.ofReal_im]
  linear_combination (a.re * a.re + a.im * a.im + b.re * b.re + b.im * b.im) * h

theorem sumSq_applyRY (θ : ℝ) (i : Wire) (ψ : QState) :
    sumSq (applyRY θ i ψ) = sumSq ψ := by
  unfold sumSq
  rw [sum_pair_split (fun k => Complex.normSq (applyRY θ i ψ k)) i,
      sum_pair_split (fun k => Complex.normSq (ψ k)) i]
  apply Finset.sum_congr rfl
  intro k hk
  simp only [Finset.mem_filter, Finset.mem_univ, true_and] at hk
  have h1 : getBit i (flipWire i k) = true := by
    simp [getBit_flipWire_self, hk]
  simp only [applyRY, hk, h1, if_true, if_false, flipWire_flipWire,
    Bool.false_eq_true, Bool.true_eq_false]
  exact normSq_rot _ _ (Real.sin_sq_add_cos_sq _) _ _

theorem sumSq_applyCNOT {c t : Wire} (h : c ≠ t) (ψ : QState) :
    sumSq (applyCNOT c t ψ) = sumSq ψ := by
  have hinv : Function.Involutive
      (fun k : BasisIx => if getBit c k then flipWire t k else k) := by
    intro k
    by_cases hk : getBit c k
    · simp [hk, getBit_flipWire_ne h, flipWire_flipWire]
    · simp [hk]
  have hcomp := Equiv.sum_comp (Function.Involutive.toPerm _ hinv)
    (fun k => Complex.normSq (ψ k))
  unfold sumSq
  rw [← hcomp]
  apply Finset.sum_congr rfl
  intro k _
  simp only [applyCNOT, Function.Involutive.coe_toPerm]
  by_cases hk : getBit c k <;> simp [hk]

theorem sumSq_initState : sumSq initState = 1 := by
  unfold sumSq initState
  simp [apply_ite Complex.normSq, Finset.sum_ite_eq]

theorem sumSq_foldl (gs : List Gate) (ψ : QState)
    (hg : ∀ g ∈ gs, ∀ φ : QState, sumSq (applyGate φ g) = sumSq φ) :
    sumSq (gs.foldl applyGate ψ) = sumSq ψ := by
  induction gs generalizing ψ with
  | nil => rfl
  | cons g gs ih =>
    rw [List.foldl_cons, ih _ (fun g hgm φ => hg g (List.mem_cons_of_mem _ hgm) φ),
        hg g (List.mem_cons_self _ _) ψ]

theorem sourceGates_preserve (c r : ℝ) :
    ∀ g ∈ sourceGates c r, ∀ φ : QState, sumSq (applyGate φ g) = sumSq φ := by
  intro g hg φ
  rw [sourceGates, List.mem_append] at hg
  rcases hg with hg | hg
  · rw [List.mem_ofFn] at hg
    obtain ⟨i, rfl⟩ := hg
    exact sumSq_applyRY _ i φ
  · rw [List.mem_ofFn] at hg
    obtain ⟨i, rfl⟩ := hg
    have hne : i.castSucc ≠ i.succ := by
      apply Fin.ne_of_val_ne
      simp [Fin.val_succ]
    exact sumSq_applyCNOT hne φ

theorem sumSq_circuitState (c r : ℝ) : sumSq (circuitState c r) = 1 := by
  rw [circuitState, sumSq_foldl _ _ (sourceGates_preserve c r), sumSq_initState]

/-! ### Helper lemmas: the probability vector -/

theorem run_quantum_analysis_length (cpu ram : ℝ) :
    (run_quantum_analysis cpu ram).length = 128 := by
  rw [run_quantum_analysis]
  exact List.length_ofFn _

theorem run_quantum_analysis_mem_bounds (cpu ram : ℝ) :
    ∀ x ∈ run_quantum_analysis cpu ram, 0 ≤ x ∧ x ≤ 1 := by
  intro x hx
  rw [run_quantum_analysis, List.mem_ofFn] at hx
  obtain ⟨k, rfl⟩ := hx
  refine ⟨Complex.normSq_nonneg _, ?_⟩
  have hsum := sumSq_circuitState (cpu / 100) (ram / 100)
  calc Complex.normSq (circuitState (cpu / 100) (ram / 100) k)
      ≤ sumSq (circuitState (cpu / 100) (ram / 100)) :=
        Finset.single_le_sum (fun i _ => Complex.normSq_nonneg _)
          (Finset.mem_univ k)
    _ = 1 := hsum

/-! ### Helper lemmas: the vault -/

theorem load_or_create_key_keyFile (fs : VaultFS) (freshKey : Bytes) :
    (load_or_create_key fs freshKey).2.keyFile =
      some (load_or_create_key fs freshKey).1 := by
  cases h : fs.keyFile <;> simp [load_or_create_key, h]

theorem strDecode_strEncode (s : String) : strDecode (strEncode s) = some s := rfl

/-! ## The claims -/

/-- C1, counterexample: the claim says `run_quantum_analysis` returns exactly
4 numbers; at cpu = mem = 0 the source returns the 128 basis-state
probabilities of `qml.probs(wires=range(7))`. -/
theorem c1_length_counterexample : (run_quantum_analysis 0 0).length ≠ 4 := by
  rw [run_quantum_analysis_length]
  norm_num

/-- C1, amended: for every cpu_load and mem_load in [0,100],
`run_quantum_analysis` returns an ordered vector of exactly 128 real numbers
(the basis-state probabilities of the 7-wire circuit), each in the range
[0, 1], with no rounding applied. -/
theorem c1_prob_vector_spec (cpu mem : ℝ) (h1 : 0 ≤ cpu) (h2 : cpu ≤ 100)
    (h3 : 0 ≤ mem) (h4 : mem ≤ 100) :
    (run_quantum_analysis cpu mem).length = 128 ∧
      ∀ x ∈ run_quantum_analysis cpu mem, 0 ≤ x ∧ x ≤ 1 :=
  ⟨run_quantum_analysis_length cpu mem, run_quantum_analysis_mem_bounds cpu mem⟩

/-- C1, witness: the amended statement instantiated at cpu = mem = 0. -/
theorem c1_prob_vector_spec_witness :
    (0 : ℝ) ≤ 0 ∧ (0 : ℝ) ≤ 100 ∧
      ((run_quantum_analysis 0 0).length = 128 ∧
        ∀ x ∈ run_quantum_analysis 0 0, 0 ≤ x ∧ x ≤ 1) :=
  ⟨le_refl 0, by norm_num,
    c1_prob_vector_spec 0 0 (le_refl 0) (by norm_num) (le_refl 0) (by norm_num)⟩

/-- C2, counterexample: the gate sequence of the source circuit is not the
spec's reference sequence; at c = r = h = 0 the source applies 13 gates
(7 RY and 6 CNOTs) while the reference sequence has 28 (21 rotations,
7 CNOTs). -/
theorem c2_gates_counterexample : sourceGates 0 0 ≠ specGates 0 0 0 := by
  intro h
  have hl := congrArg List.length h
  simp [sourceGates, specGates, List.length_flatten, List.map_ofFn,
    Function.comp, List.sum_ofFn] at hl

/-- C2, amended: the circuit applies, for every register position i in 0..6, a
single Y-axis rotation by π·(0.5 + c) when i is even and by π·(0.5 + r) when
i is odd (with c = cpu/100, r = mem/100), followed by the CNOT chain over
adjacent pairs (0,1)..(5,6); there are no X- or Z-axis rotations and no extra
CNOT from position 0 to position 6. -/
theorem c2_gate_sequence (c r : ℝ) :
    sourceGates c r =
      [Gate.ry (Real.pi * (0.5 + c)) 0, Gate.ry (Real.pi * (0.5 + r)) 1,
       Gate.ry (Real.pi * (0.5 + c)) 2, Gate.ry (Real.pi * (0.5 + r)) 3,
       Gate.ry (Real.pi * (0.5 + c)) 4, Gate.ry (Real.pi * (0.5 + r)) 5,
       Gate.ry (Real.pi * (0.5 + c)) 6,
       Gate.cnot 0 1, Gate.cnot 1 2, Gate.cnot 2 3, Gate.cnot 3 4,
       Gate.cnot 4 5, Gate.cnot 5 6] := by
  simp only [sourceGates, List.ofFn_succ, List.ofFn_zero, Fin.val_succ,
    Fin.val_zero, Fin.succ_zero_eq_one, List.cons_append, List.nil_append]
  norm_num [Fin.castSucc, Fin.succ, Fin.castAdd, Fin.castLE]
  decide

/-- C3, counterexample: on an internal failure the source's `except` arm
returns the empty list, not the four-element zero vector `[0, 0, 0, 0]`. -/
theorem c3_fallback_counterexample :
    run_quantum_analysis_try 0 0 true ≠ [0, 0, 0, 0] := by
  simp [run_quantum_analysis_try]

/-- C3, amended: the simulator is total and never propagates an error: on any
internal failure `run_quantum_analysis` returns the empty vector `[]`
(rather than `[0,0,0,0]`), and otherwise the 128-entry probability vector. -/
theorem c3_total_fallback (cpu ram : ℝ) :
    run_quantum_analysis_try cpu ram true = [] ∧
      run_quantum_analysis_try cpu ram false = run_quantum_analysis cpu ram ∧
      (run_quantum_analysis_try cpu ram false).length = 128 :=
  ⟨rfl, rfl, run_quantum_analysis_length cpu ram⟩

/-- C4, counterexample: the claim says the derived key is never itself
persisted; but on first use `load_or_create_key` writes the very key it
returns to the key file (there is no KDF between the persisted material and
the key). -/
theorem c4_key_persisted_counterexample :
    (load_or_create_key ⟨none, none⟩ (List.replicate 32 'k')).2.keyFile =
      some (load_or_create_key ⟨none, none⟩ (List.replicate 32 'k')).1 := rfl

/-- C4, amended: the vault's symmetric key is a batch of random bytes
(`AESGCM.generate_key`, 256-bit) generated once on first use and persisted
directly as the key file — no iterated-HMAC KDF and no salt are involved;
key loading is deterministic: with the key file present the same key is
always returned and the state is unchanged, so the same persisted material
always yields the same key across restarts. -/
theorem c4_key_material (fs : VaultFS) (freshKey : Bytes) :
    (∀ k, fs.keyFile = some k → load_or_create_key fs freshKey = (k, fs)) ∧
    (fs.keyFile = none →
      load_or_create_key fs freshKey =
        (freshKey, { fs with keyFile := some freshKey })) ∧
    (∀ fresh2 : Bytes,
      (load_or_create_key (load_or_create_key fs freshKey).2 fresh2).1 =
        (load_or_create_key fs freshKey).1) := by
  refine ⟨?_, ?_, ?_⟩
  · intro k hk
    simp [load_or_create_key, hk]
  · intro hk
    simp [load_or_create_key, hk]
  · intro fresh2
    have hk := load_or_create_key_keyFile fs freshKey
    conv_lhs => rw [load_or_create_key, hk]

/-- C4, witness: the amended statement instantiated at a vault whose key file
holds the single byte `a`. -/
theorem c4_key_material_witness :
    load_or_create_key ⟨some (List.replicate 32 'a'), none⟩ (List.replicate 32 'b') =
      (List.replicate 32 'a', ⟨some (List.replicate 32 'a'), none⟩) :=
  (c4_key_material ⟨some (List.replicate 32 'a'), none⟩ (List.replicate 32 'b')).1
    (List.replicate 32 'a') rfl

/-- C5: vault round-trip — for every non-empty string `s`, encrypting it and
then decrypting with the same persisted key material returns exactly `s`
(for any cipher satisfying the AES-GCM round-trip contract, any prior vault
state, and the 12-byte nonce drawn by `secrets.token_bytes(12)`). -/
theorem c5_vault_roundtrip (A : AEADScheme) (fs : VaultFS)
    (freshKey nonce fresh2 : Bytes) (s : String)
    (hnonce : nonce.length = 12) (hs : s ≠ "") :
    decrypt_api_key A (encrypt_api_key A fs freshKey nonce s) fresh2 =
      .ok (some s) := by
  cases hfs : fs.keyFile with
  | some k =>
    simp [encrypt_api_key, decrypt_api_key, load_or_create_key, hfs,
      ← hnonce, List.take_left, List.drop_left, A.decrypt_encrypt,
      strDecode_strEncode]
  | none =>
    simp [encrypt_api_key, decrypt_api_key, load_or_create_key, hfs,
      ← hnonce, List.take_left, List.drop_left, A.decrypt_encrypt,
      strDecode_strEncode]

/-- C5, witness: the round trip instantiated with the concrete tag cipher, an
empty initial vault, a 12-byte nonce, and the credential `sk-1`. -/
theorem c5_vault_roundtrip_witness :
    (List.replicate 12 'n').length = 12 ∧ ("sk-1" : String) ≠ "" ∧
      decrypt_api_key tagAEAD
        (encrypt_api_key tagAEAD ⟨none, none⟩ (List.replicate 32 'k')
          (List.replicate 12 'n') "sk-1") (List.replicate 32 'f') =
        .ok (some "sk-1") :=
  ⟨rfl, by decide,
    c5_vault_roundtrip tagAEAD ⟨none, none⟩ (List.replicate 32 'k')
      (List.replicate 12 'n') (List.replicate 32 'f') "sk-1" rfl (by decide)⟩

/-- C6, counterexample: when no vault file exists, `decrypt_api_key` does not
fail with a Missing error — it returns `None` successfully. -/
theorem c6_missing_counterexample :
    decrypt_api_key tagAEAD ⟨none, none⟩ [] = .ok none ∧
      ∀ e : VaultErr, decrypt_api_key tagAEAD ⟨none, none⟩ [] ≠ .error e := by
  refine ⟨rfl, ?_⟩
  intro e h
  simp [decrypt_api_key] at h

/-- C6, amended: when no vault file exists `decrypt_api_key` returns `None`
(an ordinary, non-error result), while when authenticated decryption fails it
propagates an InvalidTag error; the two outcomes are distinct, so the caller
can still distinguish the missing-file case from the corrupt-file case. -/
theorem c6_missing_vs_corrupt (A : AEADScheme) (fs : VaultFS) (freshKey : Bytes) :
    (fs.encFile = none → decrypt_api_key A fs freshKey = .ok none) ∧
    (∀ data, fs.encFile = some data →
      A.decrypt (load_or_create_key fs freshKey).1 (data.take 12) (data.drop 12)
        = none →
      decrypt_api_key A fs freshKey = .error .invalidTag) ∧
    ((Except.ok none : Except VaultErr (Option String)) ≠
      .error .invalidTag) := by
  refine ⟨?_, ?_, by simp⟩
  · intro h
    simp [decrypt_api_key, h]
  · intro data hdata hdec
    simp [decrypt_api_key, hdata, hdec]

/-- C6, witness: the amended statement instantiated with the concrete tag
cipher at a vault with a tampered credential file and at a vault with no
credential file. -/
theorem c6_missing_vs_corrupt_witness :
    decrypt_api_key tagAEAD
        ⟨some (List.replicate 32 'k'), some (List.replicate 12 'n' ++ ['X'])⟩
        (List.replicate 32 'f') = .error .invalidTag ∧
      decrypt_api_key tagAEAD ⟨some (List.replicate 32 'k'), none⟩
        (List.replicate 32 'f') = .ok none := by
  constructor
  · exact (c6_missing_vs_corrupt tagAEAD
      ⟨some (List.replicate 32 'k'), some (List.replicate 12 'n' ++ ['X'])⟩
      (List.replicate 32 'f')).2.1 (List.replicate 12 'n' ++ ['X']) rfl (by decide)
  · exact (c6_missing_vs_corrupt tagAEAD ⟨some (List.replicate 32 'k'), none⟩
      (List.replicate 32 'f')).1 rfl

/-- C7: the completion client makes at most 3 attempts total; after failed
attempt n it waits 2^n time units before the next attempt; if all 3 attempts
fail it returns `None` (the exhausted signal) rather than raising; and on an
endpoint failing twice then succeeding it returns the successful text on the
third attempt. -/
theorem c7_retry_policy (oracle : ℕ → Option String) :
    (run_openai_completion oracle).attempts ≤ 3 ∧
    (∀ n, n < (run_openai_completion oracle).sleeps.length →
      (run_openai_completion oracle).sleeps[n]? = some (2 ^ n)) ∧
    (oracle 0 = none → oracle 1 = none → oracle 2 = none →
      (run_openai_completion oracle).result = none ∧
        (run_openai_completion oracle).attempts = 3) ∧
    (∀ text, oracle 0 = none → oracle 1 = none → oracle 2 = some text →
      (run_openai_completion oracle).result = some text ∧
        (run_openai_completion oracle).attempts = 3) := by
  rcases h0 : oracle 0 with _ | t0
  · rcases h1 : oracle 1 with _ | t1
    · rcases h2 : oracle 2 with _ | t2
      · have hrun : run_openai_completion oracle = ⟨none, [1, 2, 4], 3⟩ := by
          norm_num [run_openai_completion, attemptLoop, h0, h1, h2]
        refine ⟨by simp [hrun], ?_, fun _ _ _ => ⟨by simp [hrun], by simp [hrun]⟩,
          fun text _ _ hc => Option.noConfusion hc⟩
        intro n hn
        rw [hrun] at hn ⊢
        simp only [List.length_cons, List.length_nil] at hn
        interval_cases n <;> rfl
      · have hrun : run_openai_completion oracle = ⟨some t2, [1, 2], 3⟩ := by
          norm_num [run_openai_completion, attemptLoop, h0, h1, h2]
        refine ⟨by simp [hrun], ?_, fun _ _ hc => Option.noConfusion hc,
          fun text _ _ hc => ?_⟩
        · intro n hn
          rw [hrun] at hn ⊢
          simp only [List.length_cons, List.length_nil] at hn
          interval_cases n <;> rfl
        · cases Option.some.inj hc
          exact ⟨by simp [hrun], by simp [hrun]⟩
    · have hrun : run_openai_completion oracle = ⟨some t1, [1], 2⟩ := by
        norm_num [run_openai_completion, attemptLoop, h0, h1]
      refine ⟨by simp [hrun], ?_, fun _ hc _ => Option.noConfusion hc,
        fun text _ hc _ => Option.noConfusion hc⟩
      intro n hn
      rw [hrun] at hn ⊢
      simp only [List.length_cons, List.length_nil] at hn
      interval_cases n <;> rfl
  · have hrun : run_openai_completion oracle = ⟨some t0, [], 1⟩ := by
      norm_num [run_openai_completion, attemptLoop, h0]
    refine ⟨by simp [hrun], ?_, fun hc _ _ => Option.noConfusion hc,
      fun text hc _ _ => Option.noConfusion hc⟩
    intro n hn
    rw [hrun] at hn
    simp at hn

/-- C7, witness: on the endpoint failing at attempts 0 and 1 and succeeding
at attempt 2, the client returns the text on the third attempt having slept
2^0 then 2^1 units. -/
theorem c7_retry_policy_witness :
    (run_openai_completion failTwiceOracle).result = some "ok" ∧
      (run_openai_completion failTwiceOracle).attempts = 3 ∧
      (run_openai_completion failTwiceOracle).sleeps = [1, 2] := by
  have h := (c7_retry_policy failTwiceOracle).2.2.2 "ok" rfl rfl rfl
  exact ⟨h.1, h.2, rfl⟩

/-- C8: the simulator is deterministic — for all (cpu, mem) in
[0,100]×[0,100], two runs of `run_quantum_analysis` on identical inputs give
identical output vectors (in the embedding the simulator is a pure function:
the source draws no randomness and `default.qubit` is a deterministic
state-vector simulation). -/
theorem c8_deterministic (cpu mem cpu2 mem2 : ℝ) (h1 : 0 ≤ cpu)
    (h2 : cpu ≤ 100) (h3 : 0 ≤ mem) (h4 : mem ≤ 100) (hc : cpu = cpu2)
    (hm : mem = mem2) :
    run_quantum_analysis cpu mem = run_quantum_analysis cpu2 mem2 := by
  rw [hc, hm]

/-- C8, witness: determinism instantiated at cpu = mem = 0. -/
theorem c8_deterministic_witness :
    (0 : ℝ) ≤ 100 ∧ run_quantum_analysis 0 0 = run_quantum_analysis 0 0 :=
  ⟨by norm_num, c8_deterministic 0 0 0 0 (le_refl 0) (by norm_num) (le_refl 0)
    (by norm_num) rfl rfl⟩

/-- C9: if every persisted row's id is bounded by the AUTOINCREMENT sequence
(the sqlite invariant), then `save_to_db` assigns the new row an id strictly
larger than every previously inserted row's id and preserves the invariant;
and the recent-10 query used by the export functions returns at most 10 rows,
ordered newest first (highest ids first). -/
theorem c9_persistence_order (rows : List DBRow) (seq : ℕ)
    (prompt result : String) (hinv : ∀ row ∈ rows, row.id ≤ seq) :
    (∀ row ∈ rows, row.id < (save_to_db rows seq prompt result).2) ∧
    (∀ row ∈ (save_to_db rows seq prompt result).1,
        row.id ≤ (save_to_db rows seq prompt result).2) ∧
    (export_recent rows).length ≤ 10 ∧
    List.Sorted newerFirst (export_recent rows) := by
  refine ⟨?_, ?_, ?_, ?_⟩
  · intro row hr
    exact Nat.lt_succ_of_le (hinv row hr)
  · intro row hr
    simp only [save_to_db, List.mem_append, List.mem_singleton] at hr
    rcases hr with hr | rfl
    · exact le_trans (hinv row hr) (Nat.le_succ seq)
    · exact le_refl _
  · simp only [export_recent, List.length_take]
    exact min_le_left _ _
  · exact List.Pairwise.sublist (List.take_sublist _ _)
      (List.sorted_insertionSort newerFirst rows)

/-- C9, witness: the ordering facts instantiated on a one-row table with
sequence value 1. -/
theorem c9_persistence_order_witness :
    (∀ row ∈ [(⟨1, "u", "a"⟩ : DBRow)],
        row.id < (save_to_db [⟨1, "u", "a"⟩] 1 "p" "r").2) ∧
      (export_recent [(⟨1, "u", "a"⟩ : DBRow)]).length ≤ 10 :=
  ⟨(c9_persistence_order [⟨1, "u", "a"⟩] 1 "p" "r" (by decide)).1,
   (c9_persistence_order [⟨1, "u", "a"⟩] 1 "p" "r" (by decide)).2.2.1⟩

/-- C10: `get_cpu_ram_usage` is total at its interface — in the embedding it
is a total function of the outcome of the underlying OS reads; on any failed
read it returns the pair (0, 0), and the error arm is the only
non-measurement outcome: on a successful read it returns the measured pair
unchanged. -/
theorem c10_telemetry_total (reading : Except Unit (ℝ × ℝ)) :
    (∀ e, reading = .error e → get_cpu_ram_usage reading = (0, 0)) ∧
    (∀ p, reading = .ok p → get_cpu_ram_usage reading = p) := by
  constructor
  · intro e h
    rw [h]
    rfl
  · intro p h
    rw [h]
    rfl

/-- C10, witness: the error arm instantiated at a failed read. -/
theorem c10_telemetry_total_witness :
    get_cpu_ram_usage (Except.error ()) = (0, 0) :=
  (c10_telemetry_total (Except.error ())).1 () rfl

end NarcanFinder
